import Mathlib

/-
Verification of the phone-number normalization / STOP-list utility
(src/app.py) against its specification.

Modelling conventions:
* Python strings are shallowly embedded as `List Char`.
* A spreadsheet cell is `Option (List Char)`: `none` models a missing value
  (pandas `NaN`, caught by `pd.isna`), `some s` a value whose textual
  representation (`str(raw)`) is `s`.
* `Char.isDigit` models Python `str.isdigit` on decimal digit characters.
* The persisted STOP-list artifact is a delimited text file; it is embedded
  as a `CsvFile` (header names plus raw text fields per row); an empty text
  field reads back as a null, exactly as an empty CSV field becomes `NaN`.
-/

namespace LimpiarNumeros

/-- Python strings are modelled as lists of characters. -/
abbrev Str := List Char

/-- A spreadsheet cell: `none` is a null/missing value (pandas `NaN`),
`some s` a value with textual representation `s`. -/
abbrev Cell := Option Str

/-- Core-digit selection of `normalize_to_us_e164` (src/app.py lines 16-21):
11 digits starting with `'1'` keep the trailing 10, exactly 10 digits are kept
unchanged, anything else is unparseable (`none`). -/
def normalize_core (digits : Str) : Option Str :=
  if digits.length = 11 ∧ digits.head? = some '1' then some digits.tail
  else if digits.length = 10 then some digits
  else none

/-- Embedding of `normalize_to_us_e164` (src/app.py lines 9-23): null input
gives the empty string; otherwise the digit characters of the textual form are
extracted in order, the core is selected, and the result is `"+1" + core` or
`"1" + core` according to `keep_plus`, or the empty string when unparseable. -/
def normalize_to_us_e164 (raw : Cell) (keep_plus : Bool) : Str :=
  match raw with
  | none => []
  | some s =>
    match normalize_core (s.filter Char.isDigit) with
    | none => []
    | some core => if keep_plus then '+' :: '1' :: core else '1' :: core

/-- The normalization algorithm exactly as the specification words it
(spec section 4.1): null gives the sentinel; otherwise keep only decimal digit
characters in order; 11 digits led by `1` keep the last 10 as core, exactly 10
digits are the core, any other count gives the sentinel; a parseable input
yields `"+1" + core` when `keep_plus` is true and `"1" + core` otherwise. -/
def normalize_spec (raw : Cell) (keep_plus : Bool) : Str :=
  match raw with
  | none => []
  | some s =>
    let digits := s.filter Char.isDigit
    if digits.length = 11 ∧ digits.head? = some '1' then
      (if keep_plus then ['+', '1'] else ['1']) ++ digits.drop 1
    else if digits.length = 10 then
      (if keep_plus then ['+', '1'] else ['1']) ++ digits
    else []

/-- Claim C1: for every input `raw` and boolean `keep_plus`,
`normalize_to_us_e164` follows the specified algorithm: null yields the empty
string, otherwise only the digit characters are kept in order, an 11-digit
string led by `1` keeps the last 10 digits as core, a 10-digit string is the
core, any other count yields the empty string, and a non-empty result is
`"+1" + core` (resp. `"1" + core`) according to `keep_plus`. -/
theorem normalize_follows_spec (raw : Cell) (keep_plus : Bool) :
    normalize_to_us_e164 raw keep_plus = normalize_spec raw keep_plus := by
  cases raw with
  | none => rfl
  | some s =>
    simp only [normalize_to_us_e164, normalize_spec, normalize_core]
    split_ifs with h1 h2 <;>
      cases keep_plus <;>
      simp [List.drop_one]

/-- The CanonicalPhone shape of spec section 3: a string matching the regular
expression `^\+?1\d{10}$`, i.e. an optional leading `'+'`, then `'1'`, then
exactly ten decimal digits. -/
def matchesCanonical (s : Str) : Bool :=
  let t := if s.head? = some '+' then s.tail else s
  decide (t.length = 11) && decide (t.head? = some '1') && t.tail.all Char.isDigit

lemma normalize_core_length_all (s core : Str)
    (h : normalize_core (s.filter Char.isDigit) = some core) :
    core.length = 10 ∧ ∀ c ∈ core, c.isDigit := by
  unfold normalize_core at h
  split_ifs at h with h1 h2
  · obtain ⟨hlen, _⟩ := h1
    cases h
    refine ⟨by simp [List.length_tail, hlen], ?_⟩
    intro c hc
    have hmem : c ∈ s.filter Char.isDigit := List.mem_of_mem_tail hc
    exact (List.mem_filter.mp hmem).2
  · cases h
    exact ⟨h2, fun c hc => (List.mem_filter.mp hc).2⟩

/-- Claim C2: every result of `normalize_to_us_e164` is a CanonicalPhone:
the empty string, or a string matching `^\+?1\d{10}$`; and when `keep_plus`
is false the result carries no leading `'+'`. -/
theorem normalize_result_canonical (raw : Cell) (keep_plus : Bool) :
    normalize_to_us_e164 raw keep_plus = [] ∨
      (matchesCanonical (normalize_to_us_e164 raw keep_plus) = true ∧
        (keep_plus = false →
          (normalize_to_us_e164 raw keep_plus).head? ≠ some '+')) := by
  cases raw with
  | none => exact Or.inl rfl
  | some s =>
    rcases h : normalize_core (s.filter Char.isDigit) with _ | core
    · exact Or.inl (by simp [normalize_to_us_e164, h])
    · obtain ⟨hlen, hdig⟩ := normalize_core_length_all s core h
      have hall : core.all Char.isDigit = true := List.all_eq_true.mpr hdig
      right
      cases keep_plus with
      | false =>
        constructor
        · simp [normalize_to_us_e164, h, matchesCanonical, hlen, hall]
        · intro _
          simp [normalize_to_us_e164, h]
      | true =>
        constructor
        · simp [normalize_to_us_e164, h, matchesCanonical, hlen, hall]
        · intro hfalse
          cases hfalse

/-- Witness for claim C2 at the concrete input `"(555) 123-4567"`. -/
theorem normalize_result_canonical_witness :
    normalize_to_us_e164 (some "(555) 123-4567".toList) false = [] ∨
      (matchesCanonical (normalize_to_us_e164 (some "(555) 123-4567".toList) false) = true ∧
        (false = false →
          (normalize_to_us_e164 (some "(555) 123-4567".toList) false).head? ≠ some '+')) :=
  normalize_result_canonical (some "(555) 123-4567".toList) false

/-- Claim C9: leading-1 equivalence: for every string of exactly 10 digit
characters, prepending the character `'1'` does not change the result of
normalization. -/
theorem normalize_leading_one_equiv (d : Str) (keep_plus : Bool)
    (hlen : d.length = 10) (hdig : ∀ c ∈ d, c.isDigit) :
    normalize_to_us_e164 (some ('1' :: d)) keep_plus =
      normalize_to_us_e164 (some d) keep_plus := by
  have hd : d.filter Char.isDigit = d := List.filter_eq_self.mpr hdig
  have h1 : ('1' :: d).filter Char.isDigit = '1' :: d := by
    simp [List.filter_cons, hd]
  simp [normalize_to_us_e164, normalize_core, hd, h1, hlen]

/-- Witness for claim C9 at the concrete digit string `"5551234567"`. -/
theorem normalize_leading_one_equiv_witness :
    normalize_to_us_e164 (some ('1' :: "5551234567".toList)) true =
      normalize_to_us_e164 (some "5551234567".toList) true :=
  normalize_leading_one_equiv "5551234567".toList true (by decide) (by decide)

/-- Claim C10: the `keep_plus` flag never affects parseability, and on a
parseable input the `keep_plus = true` result is `'+'` prepended to the
`keep_plus = false` result. -/
theorem normalize_plus_relation (raw : Cell) :
    (normalize_to_us_e164 raw true = [] ↔ normalize_to_us_e164 raw false = []) ∧
      (normalize_to_us_e164 raw true ≠ [] →
        normalize_to_us_e164 raw true = '+' :: normalize_to_us_e164 raw false) := by
  cases raw with
  | none => exact ⟨Iff.rfl, fun h => absurd rfl h⟩
  | some s =>
    rcases h : normalize_core (s.filter Char.isDigit) with _ | core <;>
      simp [normalize_to_us_e164, h]

/-- Witness for claim C10 at the concrete input `"555-123-4567"`. -/
theorem normalize_plus_relation_witness :
    normalize_to_us_e164 (some "555-123-4567".toList) true =
      '+' :: normalize_to_us_e164 (some "555-123-4567".toList) false :=
  (normalize_plus_relation (some "555-123-4567".toList)).2 (by decide)

/-- Embedding of the STOP filter block (src/app.py lines 103-123):
`df_filtered = df_out[~df_out["phonumber"].isin(stop_list["phonumber"])]` keeps
the rows whose phone value is not a member of the stop list, and
`removed_count = len(df_out) - len(df_filtered)`. -/
def stop_filter (df_out : List Str) (stop_list : List Str) : List Str × Nat :=
  let df_filtered := df_out.filter (fun p => decide (p ∉ stop_list))
  (df_filtered, df_out.length - df_filtered.length)

lemma length_filter_add_length_filter_not (l : List Str) (q : Str → Bool) :
    (l.filter q).length + (l.filter (fun a => !q a)).length = l.length := by
  induction l with
  | nil => rfl
  | cons x xs ih =>
    by_cases hx : q x <;> simp [List.filter_cons, hx, ← ih] <;> omega

/-- Claim C3: the STOP filter returns exactly the subsequence of candidates
whose value is not in the stop list (exact string equality), in the original
order, with `removedCount` equal to the number of excluded rows; an empty stop
list removes nothing, and every occurrence of a stopped value is removed, as in
`filter([A,B,A,C], {A}) = ([B,C], 2)`. -/
theorem stop_filter_spec (df_out : List Str) (stop_list : List Str) :
    (stop_filter df_out stop_list).1 =
        df_out.filter (fun p => decide (p ∉ stop_list)) ∧
      (stop_filter df_out stop_list).2 =
        (df_out.filter (fun p => decide (p ∈ stop_list))).length ∧
      stop_filter df_out [] = (df_out, 0) ∧
      stop_filter
          ["+15551234567".toList, "+15557654321".toList,
            "+15551234567".toList, "+15550000000".toList]
          ["+15551234567".toList] =
        (["+15557654321".toList, "+15550000000".toList], 2) := by
  refine ⟨rfl, ?_, ?_, by decide⟩
  · have h := length_filter_add_length_filter_not df_out
      (fun p => decide (p ∈ stop_list))
    have hle : (df_out.filter (fun p => decide (p ∉ stop_list))).length ≤
        df_out.length := List.length_filter_le _ _
    simp only [stop_filter]
    have hnot : (fun p => decide (p ∉ stop_list)) =
        (fun p => !decide (p ∈ stop_list)) := by
      funext p
      by_cases hp : p ∈ stop_list <;> simp [hp]
    rw [hnot]
    omega
  · simp [stop_filter]

/-- The persisted delimited artifact: header names and the raw text fields of
each row. -/
structure CsvFile where
  header : List Str
  rows : List (List Str)

/-- Reading a delimited text field: an empty field is a null (pandas `NaN`),
anything else is the string itself. -/
def parseField (t : Str) : Cell :=
  if t = [] then none else some t

/-- Writing a cell to a delimited text field: a null becomes the empty field,
a string is written as itself. -/
def writeField (c : Cell) : Str :=
  c.getD []

/-- The first column of a parsed file, the way pandas materializes it: one
cell per row, a missing field read as null. -/
def firstColumn (f : CsvFile) : List Cell :=
  f.rows.map (fun r => parseField (r.headD []))

/-- Embedding of `DataFrame.dropna` on a single-column frame: drop the rows
whose cell is null. -/
def dropna (col : List Cell) : List Cell :=
  col.filter (fun c => c.isSome)

def dedupFirstAux {α : Type} [DecidableEq α] : List α → List α → List α
  | _, [] => []
  | seen, x :: xs =>
    if x ∈ seen then dedupFirstAux seen xs
    else x :: dedupFirstAux (x :: seen) xs

/-- Embedding of `DataFrame.drop_duplicates`: keep the first occurrence of
each value, in order. -/
def drop_duplicates {α : Type} [DecidableEq α] (l : List α) : List α :=
  dedupFirstAux [] l

/-- The cleaning applied to the first column in `load_stop_list` and in the
replacement-upload block (src/app.py lines 44-45 and 145-146):
`dropna().drop_duplicates().reset_index(drop=True)`; the fresh contiguous row
index is implicit in the list representation. -/
def cleanColumn (col : List Cell) : List Cell :=
  drop_duplicates (dropna col)

/-- A single-column frame: its column name and its cells. -/
structure PhoneCol where
  name : Str
  cells : List Cell

/-- The canonical phone column name. -/
def phonumber : Str := "phonumber".toList

/-- `pd.DataFrame(columns=["phonumber"])`: the empty STOP list. -/
def emptyStop : PhoneCol := ⟨phonumber, []⟩

/-- The state of the persisted STOP-list artifact: absent, unreadable, or a
parsed file. -/
inductive StopState where
  | absent
  | corrupt
  | file (f : CsvFile)

/-- Embedding of `load_stop_list` (src/app.py lines 33-49): absent or
unreadable state gives the empty list; a zero-column file gives the empty
list; otherwise the first column is retagged to `phonumber`, the other
columns are dropped, and nulls and duplicates are removed. -/
def load_stop_list : StopState → PhoneCol
  | .absent => emptyStop
  | .corrupt => emptyStop
  | .file f =>
    if f.header.length = 0 then emptyStop
    else ⟨phonumber, cleanColumn (firstColumn f)⟩

/-- Embedding of `save_stop_list` (src/app.py lines 51-53): write the frame
as a delimited file, one field per row, no index column. -/
def save_stop_list (df : PhoneCol) : StopState :=
  .file ⟨[df.name], df.cells.map (fun c => [writeField c])⟩

/-- An uploaded replacement STOP list: unreadable, or a parsed file. -/
inductive Upload where
  | corrupt
  | file (f : CsvFile)

/-- Embedding of the replacement-upload block (src/app.py lines 135-152):
an unreadable upload or a zero-column upload is rejected and the prior state
kept; otherwise the first column is retagged, cleaned and saved. The boolean
reports success. -/
def handle_stop_upload (prior : StopState) (u : Upload) : StopState × Bool :=
  match u with
  | .corrupt => (prior, false)
  | .file f =>
    if f.header.length = 0 then (prior, false)
    else (save_stop_list ⟨phonumber, cleanColumn (firstColumn f)⟩, true)

lemma mem_dedupFirstAux {α : Type} [DecidableEq α] (a : α) (seen l : List α) :
    a ∈ dedupFirstAux seen l ↔ a ∈ l ∧ a ∉ seen := by
  induction l generalizing seen with
  | nil => simp [dedupFirstAux]
  | cons x xs ih =>
    simp only [dedupFirstAux]
    split_ifs with hx
    · rw [ih]
      constructor
      · rintro ⟨h1, h2⟩
        exact ⟨List.mem_cons_of_mem _ h1, h2⟩
      · rintro ⟨h1, h2⟩
        rcases List.mem_cons.mp h1 with h | h
        · exact absurd (h ▸ hx) h2
        · exact ⟨h, h2⟩
    · rw [List.mem_cons, ih]
      constructor
      · rintro (h | ⟨h1, h2⟩)
        · exact ⟨h ▸ List.mem_cons_self x xs, h ▸ hx⟩
        · exact ⟨List.mem_cons_of_mem _ h1, fun hs => h2 (List.mem_cons_of_mem _ hs)⟩
      · rintro ⟨h1, h2⟩
        rcases List.mem_cons.mp h1 with h | h
        · exact Or.inl h
        · by_cases hax : a = x
          · exact Or.inl hax
          · exact Or.inr ⟨h, by simp [hax, h2]⟩

lemma nodup_dedupFirstAux {α : Type} [DecidableEq α] (seen l : List α) :
    (dedupFirstAux seen l).Nodup := by
  induction l generalizing seen with
  | nil => simp [dedupFirstAux]
  | cons x xs ih =>
    simp only [dedupFirstAux]
    split_ifs with hx
    · exact ih seen
    · refine List.nodup_cons.mpr ⟨fun hmem => ?_, ih (x :: seen)⟩
      exact ((mem_dedupFirstAux x (x :: seen) xs).mp hmem).2 (List.mem_cons_self x seen)

lemma dedupFirstAux_sublist {α : Type} [DecidableEq α] (seen l : List α) :
    List.Sublist (dedupFirstAux seen l) l := by
  induction l generalizing seen with
  | nil => simp [dedupFirstAux]
  | cons x xs ih =>
    simp only [dedupFirstAux]
    split_ifs with hx
    · exact (ih seen).cons x
    · exact (ih (x :: seen)).cons₂ x

lemma mem_drop_duplicates {α : Type} [DecidableEq α] (a : α) (l : List α) :
    a ∈ drop_duplicates l ↔ a ∈ l := by
  rw [drop_duplicates, mem_dedupFirstAux]
  simp

/-- The deduplicated, null-free form of a phone column, as the specification
words it: null entries removed (in the delimited artifact a blank field and a
null coincide, so blank entries are nulls), then duplicate entries removed
keeping the first occurrence. -/
def dedupNullFree (cells : List Cell) : List Cell :=
  drop_duplicates (cells.filter (fun c => decide (c ≠ none ∧ c ≠ some [])))

lemma parse_write_filter (cells : List Cell) :
    (cells.map (fun c => parseField (writeField c))).filter (fun c => c.isSome)
      = cells.filter (fun c => decide (c ≠ none ∧ c ≠ some [])) := by
  induction cells with
  | nil => rfl
  | cons c cs ih =>
    rcases c with _ | s
    · simpa [parseField, writeField, List.filter_cons] using ih
    · cases s with
      | nil => simpa [parseField, writeField, List.filter_cons] using ih
      | cons a t => simpa [parseField, writeField, List.filter_cons] using ih

lemma load_save_cells (newSet : PhoneCol) :
    (load_stop_list (save_stop_list newSet)).cells = dedupNullFree newSet.cells := by
  simp only [save_stop_list, load_stop_list, List.length_cons, List.length_nil]
  rw [if_neg (by omega)]
  simp only [firstColumn, cleanColumn, dropna, List.map_map, dedupNullFree]
  rw [show (fun r => parseField (List.headD r [])) ∘ (fun c => [writeField c])
        = fun c => parseField (writeField c) from rfl]
  rw [parse_write_filter]

/-- Claim C4: for every phone column, `replace` (persist) followed by `load`
returns exactly the deduplicated, null-free form of what was replaced: the
same phone values, first-occurrence order preserved (the result is a sublist
of the input), with no nulls and no duplicates; on a blank-free input this is
exactly null-removal followed by first-occurrence deduplication. -/
theorem replace_then_load (newSet : PhoneCol) :
    (load_stop_list (save_stop_list newSet)).cells = dedupNullFree newSet.cells ∧
      (load_stop_list (save_stop_list newSet)).name = phonumber ∧
      (load_stop_list (save_stop_list newSet)).cells.Nodup ∧
      (∀ c ∈ (load_stop_list (save_stop_list newSet)).cells, c ≠ none) ∧
      List.Sublist (dedupNullFree newSet.cells) newSet.cells ∧
      ((some [] : Cell) ∉ newSet.cells →
        (load_stop_list (save_stop_list newSet)).cells =
          drop_duplicates (dropna newSet.cells)) := by
  have hcells := load_save_cells newSet
  refine ⟨hcells, ?_, ?_, ?_, ?_, ?_⟩
  · simp only [save_stop_list, load_stop_list, List.length_cons, List.length_nil]
    rw [if_neg (by omega)]
  · rw [hcells]
    exact nodup_dedupFirstAux _ _
  · intro c hc
    rw [hcells, dedupNullFree, mem_drop_duplicates] at hc
    exact (of_decide_eq_true (List.mem_filter.mp hc).2).1
  · exact (dedupFirstAux_sublist _ _).trans (List.filter_sublist _)
  · intro hblank
    rw [hcells, dedupNullFree, dropna]
    congr 1
    refine List.filter_congr fun c hc => ?_
    rcases c with _ | s
    · simp
    · have : s ≠ [] := fun h => hblank (h ▸ hc)
      simp [this]

/-- Witness for claim C4 at a concrete column with a duplicate and a null. -/
theorem replace_then_load_witness :
    ((some "15551234567".toList : Cell) ≠ none) ∧
      (load_stop_list (save_stop_list
          ⟨phonumber, [some "15551234567".toList, none,
            some "15551234567".toList, some "15550000000".toList]⟩)).cells =
        drop_duplicates (dropna
          [some "15551234567".toList, none,
            some "15551234567".toList, some "15550000000".toList]) :=
  ⟨(replace_then_load
      ⟨phonumber, [some "15551234567".toList, none,
        some "15551234567".toList, some "15550000000".toList]⟩).2.2.2.1
      (some "15551234567".toList) (by decide),
    (replace_then_load
      ⟨phonumber, [some "15551234567".toList, none,
        some "15551234567".toList, some "15550000000".toList]⟩).2.2.2.2.2
      (by decide)⟩

/-- Claim C5: `load_stop_list` never raises: an absent artifact, an unreadable
artifact, and a structurally empty (zero-column) artifact all give the empty
STOP list. -/
theorem load_never_raises :
    load_stop_list .absent = emptyStop ∧
      load_stop_list .corrupt = emptyStop ∧
      ∀ rows : List (List Str), load_stop_list (.file ⟨[], rows⟩) = emptyStop := by
  exact ⟨rfl, rfl, fun rows => by simp [load_stop_list]⟩

/-- The StopList invariant of spec section 3: the column carries the canonical
phone field name, and its cells are free of duplicates, nulls and blank
strings. -/
def StopListInvariant (p : PhoneCol) : Prop :=
  p.name = phonumber ∧ p.cells.Nodup ∧
    ∀ c ∈ p.cells, ∃ t, c = some t ∧ t ≠ []

lemma cleanColumn_firstColumn_invariant (f : CsvFile) :
    StopListInvariant ⟨phonumber, cleanColumn (firstColumn f)⟩ := by
  refine ⟨rfl, nodup_dedupFirstAux _ _, fun c hc => ?_⟩
  rw [cleanColumn, mem_drop_duplicates, dropna, List.mem_filter] at hc
  obtain ⟨hmem, hsome⟩ := hc
  rw [firstColumn, List.mem_map] at hmem
  obtain ⟨r, _, hr⟩ := hmem
  rw [parseField] at hr
  split_ifs at hr with he
  · rw [← hr] at hsome
    cases hsome
  · exact ⟨r.headD [], hr.symm, he⟩

/-- The header after `rename(columns={first_col: "phonumber"})` (src/app.py
lines 41-42 and 142-143): the first name is replaced by `phonumber`, the other
names are kept unchanged; pandas never checks the result for duplicate
labels. -/
def renamedHeader (f : CsvFile) : List Str :=
  match f.header with
  | [] => []
  | _ :: rest => phonumber :: rest

/-- pandas label selection `df[["phonumber"]]` (src/app.py lines 43 and 144)
keeps every column whose label is `phonumber`, in column order: the positions
of the label in the renamed header. When a non-first source column is already
named `phonumber`, the rename duplicates the label and the selection keeps
both columns. -/
def phonumberIdxs (f : CsvFile) : List Nat :=
  (List.range (renamedHeader f).length).filter
    (fun i => decide ((renamedHeader f).getD i [] = phonumber))

/-- The cells of one row at the selected column positions; a missing field is
read as null. -/
def selectRow (idxs : List Nat) (r : List Str) : List Cell :=
  idxs.map (fun i => parseField (r.getD i []))

/-- The rows of the frame built by
`df[["phonumber"]].dropna().drop_duplicates()` in `load_stop_list` and in the
replacement-upload block (src/app.py lines 43-45 and 144-146), under the full
label-selection semantics: select the `phonumber`-labelled columns, drop every
row with any null, and drop duplicate rows (whole-row comparison) keeping the
first occurrence. -/
def selectClean (f : CsvFile) : List (List Cell) :=
  drop_duplicates
    ((f.rows.map (selectRow (phonumberIdxs f))).filter
      (fun r => r.all (fun c => c.isSome)))

/-- The phone values of a selected frame: its first selected column, which is
always the original first column. -/
def phoneValues (rows : List (List Cell)) : List Cell :=
  rows.map (fun r => r.getD 0 none)

/-- A replacement upload whose second column is already named `phonumber`:
header `tel,phonumber`, rows `x111,a` and `x111,b`. -/
def dupLabelUpload : CsvFile :=
  ⟨["tel".toList, phonumber],
    [["x111".toList, "a".toList], ["x111".toList, "b".toList]]⟩

lemma getD_zero_eq_headD (r : List Str) : r.getD 0 [] = r.headD [] := by
  cases r <;> rfl

lemma dedupFirstAux_map_injective {α β : Type} [DecidableEq α] [DecidableEq β]
    (f : α → β) (hf : Function.Injective f) (seen l : List α) :
    dedupFirstAux (seen.map f) (l.map f) = (dedupFirstAux seen l).map f := by
  induction l generalizing seen with
  | nil => simp [dedupFirstAux]
  | cons x xs ih =>
    simp only [List.map_cons, dedupFirstAux]
    have hmem : f x ∈ seen.map f ↔ x ∈ seen := by
      constructor
      · intro h
        obtain ⟨y, hy, hxy⟩ := List.mem_map.mp h
        exact (hf hxy) ▸ hy
      · exact fun h => List.mem_map_of_mem f h
    by_cases hx : x ∈ seen
    · rw [if_pos (hmem.mpr hx), if_pos hx, ih]
    · rw [if_neg (fun h => hx (hmem.mp h)), if_neg hx, List.map_cons,
        ← List.map_cons f x seen, ih]

/-- When no non-first source column is named `phonumber`, the full
label-selection semantics selects exactly the first column and its phone
values are the single-column cleaning `cleanColumn (firstColumn f)`: the
simplified embedding used for the other claims is the unique-label
specialization of the full one. -/
lemma phoneValues_selectClean_unique_label (f0 : CsvFile) (c0 : Str)
    (rest : List Str) (hh : f0.header = c0 :: rest) (hres : phonumber ∉ rest) :
    phoneValues (selectClean f0) = cleanColumn (firstColumn f0) := by
  have hren : renamedHeader f0 = phonumber :: rest := by
    unfold renamedHeader
    rw [hh]
  have hidx : phonumberIdxs f0 = [0] := by
    unfold phonumberIdxs
    rw [hren]
    rw [show (phonumber :: rest).length = rest.length + 1 from rfl,
      List.range_succ_eq_map, List.filter_cons]
    rw [if_pos (by simp)]
    have hnil : (List.range rest.length).filter
        (fun i => decide ((phonumber :: rest).getD (Nat.succ i) [] = phonumber)) = [] := by
      refine List.filter_eq_nil_iff.mpr fun i hi => ?_
      have hilt : i < rest.length := List.mem_range.mp hi
      have : (phonumber :: rest).getD (Nat.succ i) [] = rest[i] := by
        rw [List.getD_cons_succ, List.getD_eq_getElem rest [] hilt]
      simp only [this, decide_eq_true_eq]
      exact fun he => hres (he ▸ List.getElem_mem hilt)
    rw [List.filter_map]
    simp only [Function.comp_def]
    rw [hnil]
    rfl
  have hsel : ∀ r : List Str, selectRow [0] r = [parseField (r.headD [])] := by
    intro r
    show [parseField (r.getD 0 [])] = [parseField (r.headD [])]
    rw [getD_zero_eq_headD]
  unfold selectClean
  rw [hidx]
  have hmaps : f0.rows.map (selectRow [0]) =
      (f0.rows.map (fun r => parseField (r.headD []))).map (fun c => [c]) := by
    rw [List.map_map]
    exact List.map_congr_left fun r _ => hsel r
  rw [hmaps, List.filter_map]
  have hpred : ((fun r : List Cell => r.all (fun c => c.isSome)) ∘ fun c => [c])
      = fun c : Cell => c.isSome := by
    funext c
    simp
  rw [hpred]
  have hded := dedupFirstAux_map_injective (fun c : Cell => [c])
    (fun a b h => (List.cons.inj h).1) []
    ((f0.rows.map (fun r => parseField (r.headD []))).filter (fun c => c.isSome))
  simp only [List.map_nil] at hded
  rw [drop_duplicates, hded]
  unfold phoneValues
  rw [List.map_map]
  have hid : ((fun r : List Cell => r.getD 0 none) ∘ fun c : Cell => [c]) = id := by
    funext c
    rfl
  rw [hid, List.map_id]
  rfl

/-- Claim C6 (refuted by the code): uploading a replacement STOP list whose
second column is already named `phonumber` (header `tel,phonumber`, rows
`x111,a` and `x111,b`) makes the first-column rename duplicate the label;
`df[["phonumber"]]` then keeps both columns, `drop_duplicates` compares whole
row pairs, and the persisted frame carries the phone value `x111` twice next
to a second column, violating the StopList invariant — while the intended
single-column cleaning of the same upload keeps `x111` exactly once, as the
code's own docstring (use always the first column) and the specification
promise. -/
theorem stoplist_invariant_violated :
    (phonumberIdxs dupLabelUpload).length = 2 ∧
      phoneValues (selectClean dupLabelUpload) =
        [some "x111".toList, some "x111".toList] ∧
      ¬ (phoneValues (selectClean dupLabelUpload)).Nodup ∧
      ¬ StopListInvariant ⟨phonumber, phoneValues (selectClean dupLabelUpload)⟩ ∧
      cleanColumn (firstColumn dupLabelUpload) = [some "x111".toList] :=
  ⟨by decide, by decide, by decide,
    fun h => absurd h.2.1 (by decide), by decide⟩

/-- A source table: named columns, each with its cells. -/
structure DataFrame where
  cols : List (Str × List Cell)

/-- The column names of a table. -/
def DataFrame.columns (df : DataFrame) : List Str :=
  df.cols.map Prod.fst

/-- Embedding of `build_phonumber_column` (src/app.py lines 25-31): raise a
named-column error when the requested column is absent, otherwise map
`normalize_to_us_e164` over the selected column into a new single-column
`phonumber` frame. -/
def build_phonumber_column (df : DataFrame) (column : Str) (keep_plus : Bool) :
    Except Str PhoneCol :=
  if column ∉ df.columns then
    Except.error ("La columna ".toList ++ column ++ " no existe en el archivo.".toList)
  else
    match df.cols.find? (fun kv => decide (kv.1 = column)) with
    | none =>
      Except.error ("La columna ".toList ++ column ++ " no existe en el archivo.".toList)
    | some kv =>
      Except.ok ⟨phonumber, kv.2.map (fun x => some (normalize_to_us_e164 x keep_plus))⟩

/-- Claim C7: applying the normalizer to a column fails with a named-column
error when the requested column name does not exist in the source table, and
otherwise returns a single-column `phonumber` table of normalized values with
exactly one output row per input row, preserving row order. -/
theorem build_phonumber_column_spec (df : DataFrame) (column : Str) (keep_plus : Bool) :
    (column ∉ df.columns →
      ∃ msg, build_phonumber_column df column keep_plus = Except.error msg) ∧
      (column ∈ df.columns →
        ∃ vals,
          (column, vals) ∈ df.cols ∧
            build_phonumber_column df column keep_plus =
              Except.ok ⟨phonumber,
                vals.map (fun x => some (normalize_to_us_e164 x keep_plus))⟩ ∧
            (vals.map (fun x => some (normalize_to_us_e164 x keep_plus))).length
              = vals.length ∧
            ∀ i : Nat,
              (vals.map (fun x => some (normalize_to_us_e164 x keep_plus)))[i]? =
                (vals[i]?).map (fun x => some (normalize_to_us_e164 x keep_plus))) := by
  constructor
  · intro h
    exact ⟨_, by rw [build_phonumber_column, if_pos h]⟩
  · intro h
    have hex : ∃ kv ∈ df.cols, (fun kv : Str × List Cell => decide (kv.1 = column)) kv = true := by
      rw [DataFrame.columns, List.mem_map] at h
      obtain ⟨kv, hkv, hfst⟩ := h
      exact ⟨kv, hkv, decide_eq_true hfst⟩
    have hsome : (df.cols.find? (fun kv => decide (kv.1 = column))).isSome :=
      List.find?_isSome.mpr hex
    obtain ⟨kv, hfind⟩ := Option.isSome_iff_exists.mp hsome
    have hmem : kv ∈ df.cols := List.mem_of_find?_eq_some hfind
    have hp := List.find?_some hfind
    have hfst : kv.1 = column := by simpa using hp
    refine ⟨kv.2, ?_, ?_, List.length_map _ _, fun i => List.getElem?_map _ _ _⟩
    · rw [← hfst]
      exact hmem
    · rw [build_phonumber_column, if_neg (by simp [h]), hfind]

/-- Witness for claim C7 at a concrete two-column table, on a present and on
an absent column name. -/
theorem build_phonumber_column_spec_witness :
    (∃ msg, build_phonumber_column
        ⟨[("tel".toList, [some "5551234567".toList]),
          ("nombre".toList, [some "ana".toList])]⟩
        "telefono".toList true = Except.error msg) ∧
      (∃ vals,
        ("tel".toList, vals) ∈
          [("tel".toList, [some "5551234567".toList]),
            ("nombre".toList, [some "ana".toList])] ∧
          build_phonumber_column
              ⟨[("tel".toList, [some "5551234567".toList]),
                ("nombre".toList, [some "ana".toList])]⟩
              "tel".toList true =
            Except.ok ⟨phonumber,
              vals.map (fun x => some (normalize_to_us_e164 x true))⟩ ∧
          (vals.map (fun x => some (normalize_to_us_e164 x true))).length
            = vals.length ∧
          ∀ i : Nat,
            (vals.map (fun x => some (normalize_to_us_e164 x true)))[i]? =
              (vals[i]?).map (fun x => some (normalize_to_us_e164 x true))) :=
  ⟨(build_phonumber_column_spec
      ⟨[("tel".toList, [some "5551234567".toList]),
        ("nombre".toList, [some "ana".toList])]⟩
      "telefono".toList true).1 (by decide),
    (build_phonumber_column_spec
      ⟨[("tel".toList, [some "5551234567".toList]),
        ("nombre".toList, [some "ana".toList])]⟩
      "tel".toList true).2 (by decide)⟩

/-- Claim C8: a zero-column replacement upload (and likewise an unreadable
one) is rejected atomically: the operation reports failure, nothing is
written, and the prior persisted STOP list is left exactly as it was. -/
theorem upload_rejection_atomic (prior : StopState) (f : CsvFile) :
    (f.header.length = 0 → handle_stop_upload prior (.file f) = (prior, false)) ∧
      handle_stop_upload prior .corrupt = (prior, false) := by
  refine ⟨fun h => ?_, rfl⟩
  rw [handle_stop_upload, if_pos h]

/-- Witness for claim C8: a zero-column upload over a concrete prior state. -/
theorem upload_rejection_atomic_witness :
    handle_stop_upload
        (.file ⟨[phonumber], [["15551234567".toList]]⟩)
        (.file ⟨[], []⟩) =
      (.file ⟨[phonumber], [["15551234567".toList]]⟩, false) :=
  (upload_rejection_atomic
      (.file ⟨[phonumber], [["15551234567".toList]]⟩) ⟨[], []⟩).1 rfl

end LimpiarNumeros
